import Mathlib

/-!
Verification development for the MinVault file-upload gateway.

Strings are modelled as lists of characters; JavaScript numbers are modelled
as exact rationals (`Rat`); instants are modelled as milliseconds since the
epoch (`Nat`).  Nondeterministic inputs of the program (the current time and
the random UUID head used in filename generation) are made explicit
parameters.  Each definition is a direct translation of the corresponding
function of the repository; functions of external libraries that the
repository calls (the Node `path` module, the multer multipart decoder) and
repository files absent from the source tree (the controller) are modelled,
as documented on each such definition.
-/

namespace MinVault

/-- Character data of a string literal. -/
def chars (s : String) : List Char := s.data

/-- Substring test, the translation of JavaScript `String.prototype.includes`:
some tail of the haystack has the needle as a prefix. -/
def includesL (needle hay : List Char) : Bool :=
  hay.tails.any (fun t => needle.isPrefixOf t)

/-! ## Upload middleware (`src/middleware/upload.js`) -/

/-- The regex digit class `\d`: ASCII `0`-`9`. -/
def isJsDigit (c : Char) : Bool := 48 ≤ c.toNat && c.toNat ≤ 57

/-- The regex whitespace class `\s` of JavaScript: space, tab, line
terminators, and the Unicode space characters. -/
def isJsWs (c : Char) : Bool :=
  let x := c.toNat
  (x == 9) || (x == 10) || (x == 11) || (x == 12) || (x == 13) || (x == 32) ||
  (x == 160) || (x == 5760) || (8192 ≤ x && x ≤ 8202) || (x == 8232) ||
  (x == 8233) || (x == 8239) || (x == 8287) || (x == 12288) || (x == 65279)

/-- The size units recognised by `parseSize`. -/
inductive SizeUnit
  | b
  | kb
  | mb
  | gb
deriving DecidableEq

/-- The `units` table of `parseSize`: bytes per unit. -/
def unitBytes : SizeUnit → Nat
  | .b => 1
  | .kb => 1024
  | .mb => 1024 ^ 2
  | .gb => 1024 ^ 3

/-- ASCII upper-casing on character codes, as `String.prototype.toUpperCase`
acts on the unit letters. -/
def toUpperNat (x : Nat) : Nat := if 97 ≤ x ∧ x ≤ 122 then x - 32 else x

/-- Recognise the unit alternative `(B|KB|MB|GB)` case-insensitively; the
match must cover the whole remaining input (the regex is anchored by `$`). -/
def unitOf (u : List Char) : Option SizeUnit :=
  match u.map (fun c => toUpperNat c.toNat) with
  | [66] => some .b
  | [75, 66] => some .kb
  | [77, 66] => some .mb
  | [71, 66] => some .gb
  | _ => none

/-- Numeric value of a digit string (the integer part of the matched number). -/
def digitsVal (l : List Char) : Nat :=
  l.foldl (fun a c => 10 * a + (c.toNat - 48)) 0

/-- Value of `parseFloat` on `<ds>.<fs>` (or on `<ds>` when `fs` is empty),
with JavaScript numbers modelled as exact rationals. -/
def numVal (ds fs : List Char) : Rat :=
  (digitsVal ds : Rat) + (digitsVal fs : Rat) / ((10 : Rat) ^ fs.length)

/-- The anchored match `^(\d+(?:\.\d+)?)\s*(B|KB|MB|GB)$/i` of `parseSize`:
returns the captured number and unit when the whole input matches.  The
integer digits are taken greedily; a following `.` must be followed by at
least one digit; optional whitespace and then the unit must exhaust the
input. -/
def matchSize (l : List Char) : Option (Rat × SizeUnit) :=
  if (l.takeWhile isJsDigit).isEmpty then none
  else if (l.dropWhile isJsDigit).head? = some '.' then
    if (((l.dropWhile isJsDigit).tail).takeWhile isJsDigit).isEmpty then none
    else
      (unitOf ((((l.dropWhile isJsDigit).tail).dropWhile isJsDigit).dropWhile isJsWs)).map
        (fun u =>
          (numVal (l.takeWhile isJsDigit)
            (((l.dropWhile isJsDigit).tail).takeWhile isJsDigit), u))
  else
    (unitOf ((l.dropWhile isJsDigit).dropWhile isJsWs)).map
      (fun u => (numVal (l.takeWhile isJsDigit) [], u))

/-- `parseSize` of `src/middleware/upload.js`: convert a size string to bytes,
falling back to 10 MB when the input does not match the pattern. -/
def parseSize (l : List Char) : Rat :=
  match matchSize l with
  | none => 10 * 1024 * 1024
  | some (n, u) => n * (unitBytes u : Rat)

/-- The multer `limits.fileSize` option of `src/middleware/upload.js`:
`parseSize(config.upload.maxFileSize)`. -/
def multerFileSizeLimit (maxFileSizeStr : List Char) : Rat := parseSize maxFileSizeStr

/-- The `fileFilter` acceptance test of `src/middleware/upload.js`: an entry
ending in `/*` is stripped of its last two characters and compared by
`startsWith`; any other entry is compared for equality. -/
def isAllowed (allowedTypes : List (List Char)) (mimetype : List Char) : Bool :=
  allowedTypes.any (fun ty =>
    if ['/', '*'].isSuffixOf ty then ty.dropLast.dropLast.isPrefixOf mimetype
    else mimetype == ty)

/-- Comma-and-space join, the translation of `allowedTypes.join(', ')`. -/
def joinComma : List (List Char) → List Char
  | [] => []
  | [t] => t
  | t :: ts => t ++ chars ", " ++ joinComma ts

/-- The rejection message built by `fileFilter`. -/
def filterMsg (allowedTypes : List (List Char)) (mimetype : List Char) : List Char :=
  chars "File type " ++ mimetype ++ chars " is not allowed. Allowed types: " ++
    joinComma allowedTypes

/-! ## Error objects and JSON responses -/

/-- The multer error codes distinguished by `handleMulterError`. -/
inductive MulterCode
  | limitFileSize
  | limitFileCount
  | limitUnexpectedFile
  | otherCode (c : List Char)
deriving DecidableEq

/-- A JavaScript `Error` as the middleware sees it: `multerCode` is `some`
exactly when the error is an `instanceof multer.MulterError`; `statusCode`
and `code` are optional extra properties (absent on a plain `Error`). -/
structure JsErr where
  name : List Char
  message : List Char
  multerCode : Option MulterCode
  statusCode : Option Nat
  code : Option (List Char)
deriving DecidableEq

/-- Fields of a JSON response body.  A field holding `none` is absent from
the serialized object.  Timestamps are recorded as the instant in epoch
milliseconds that `new Date().toISOString()` serializes. -/
structure Body where
  success : Bool
  error : Option (List Char)
  message : Option (List Char)
  code : Option (List Char)
  timestampMs : Option Nat
  pathFld : Option (List Char)
  methodFld : Option (List Char)
  stackIncluded : Bool
deriving DecidableEq

/-- An HTTP response: status code and JSON body. -/
structure JsonResponse where
  status : Nat
  body : Body
deriving DecidableEq

/-- Outcome of an Express error-middleware invocation: either a response is
written, or the error is forwarded to the next error handler. -/
inductive MWResult
  | respond (r : JsonResponse)
  | forward (e : JsErr)
deriving DecidableEq

/-- Body of the `FILE_TOO_LARGE` response of `handleMulterError`. -/
def fileTooLargeBody (maxFileSizeStr : List Char) : Body :=
  ⟨false, some (chars "File too large"),
    some (chars "Maximum file size is " ++ maxFileSizeStr),
    some (chars "FILE_TOO_LARGE"), none, none, none, false⟩

/-- Body of the `TOO_MANY_FILES` response of `handleMulterError`. -/
def tooManyFilesBody : Body :=
  ⟨false, some (chars "Too many files"),
    some (chars "Maximum 10 files per request"),
    some (chars "TOO_MANY_FILES"), none, none, none, false⟩

/-- Body of the `UNEXPECTED_FIELD` response of `handleMulterError`. -/
def unexpectedFieldBody : Body :=
  ⟨false, some (chars "Unexpected field"),
    some (chars "Unexpected file field"),
    some (chars "UNEXPECTED_FIELD"), none, none, none, false⟩

/-- Body of the default `UPLOAD_ERROR` response of `handleMulterError`. -/
def uploadErrorBody (msg : List Char) : Body :=
  ⟨false, some (chars "Upload error"), some msg,
    some (chars "UPLOAD_ERROR"), none, none, none, false⟩

/-- Body of the `INVALID_FILE_TYPE` response of `handleMulterError`. -/
def invalidFileTypeBody (msg : List Char) : Body :=
  ⟨false, some (chars "Invalid file type"), some msg,
    some (chars "INVALID_FILE_TYPE"), none, none, none, false⟩

/-- `handleMulterError` of `src/middleware/upload.js`: multer errors are
answered 400 with a code chosen by the multer error code; a non-multer error
whose message contains `File type` is answered 400 `INVALID_FILE_TYPE`; any
other error is forwarded with `next(error)`. -/
def handleMulterError (maxFileSizeStr : List Char) (e : JsErr) : MWResult :=
  match e.multerCode with
  | some .limitFileSize => .respond ⟨400, fileTooLargeBody maxFileSizeStr⟩
  | some .limitFileCount => .respond ⟨400, tooManyFilesBody⟩
  | some .limitUnexpectedFile => .respond ⟨400, unexpectedFieldBody⟩
  | some (.otherCode _) => .respond ⟨400, uploadErrorBody e.message⟩
  | none =>
    if includesL (chars "File type") e.message then
      .respond ⟨400, invalidFileTypeBody e.message⟩
    else .forward e

/-! ## Error handler (`src/middleware/errorHandler.js`) -/

/-- Request data read by the error handlers. -/
structure ReqInfo where
  reqPath : List Char
  reqMethod : List Char
deriving DecidableEq

/-- The enumerated error codes of the wire protocol. -/
def knownCodes : List (List Char) :=
  [chars "NO_FILE", chars "NO_FILES", chars "MISSING_FILENAME",
   chars "INVALID_FILE_TYPE", chars "FILE_TOO_LARGE", chars "TOO_MANY_FILES",
   chars "UNEXPECTED_FIELD", chars "UPLOAD_ERROR", chars "VALIDATION_ERROR",
   chars "UNAUTHORIZED", chars "SERVICE_UNAVAILABLE", chars "BUCKET_NOT_FOUND",
   chars "ACCESS_DENIED", chars "SERVICE_UNHEALTHY", chars "NOT_FOUND",
   chars "INTERNAL_ERROR", chars "RATE_LIMIT_EXCEEDED"]

/-- `errorHandler` of `src/middleware/errorHandler.js`.  The defaults apply
JavaScript truthiness: an absent or zero `statusCode` falls back to 500, an
absent or empty `code` to `INTERNAL_ERROR`, an empty message to
`Internal Server Error`.  The branch chain then overrides status and code
(and, for the storage branches, the message). -/
def errorHandler (nodeEnv : List Char) (e : JsErr) (req : ReqInfo) (now : Nat) :
    JsonResponse :=
  let statusCode0 : Nat :=
    match e.statusCode with
    | some n => if n = 0 then 500 else n
    | none => 500
  let message0 : List Char :=
    if e.message.isEmpty then chars "Internal Server Error" else e.message
  let code0 : List Char :=
    match e.code with
    | some c => if c.isEmpty then chars "INTERNAL_ERROR" else c
    | none => chars "INTERNAL_ERROR"
  let triple : Nat × List Char × List Char :=
    if e.name = chars "ValidationError" then
      (400, message0, chars "VALIDATION_ERROR")
    else if e.name = chars "UnauthorizedError" then
      (401, message0, chars "UNAUTHORIZED")
    else if includesL (chars "ECONNREFUSED") e.message then
      (503, chars "Storage service unavailable", chars "SERVICE_UNAVAILABLE")
    else if includesL (chars "NoSuchBucket") e.message then
      (500, chars "Storage bucket not found", chars "BUCKET_NOT_FOUND")
    else if includesL (chars "AccessDenied") e.message then
      (403, chars "Storage access denied", chars "ACCESS_DENIED")
    else (statusCode0, message0, code0)
  ⟨triple.1,
    ⟨false, some triple.2.1, none, some triple.2.2, some now,
      some req.reqPath, some req.reqMethod, nodeEnv = chars "development"⟩⟩

/-- `notFoundHandler` of `src/middleware/errorHandler.js`. -/
def notFoundHandler (req : ReqInfo) (now : Nat) : JsonResponse :=
  ⟨404,
    ⟨false, some (chars "Route not found"),
      some (chars "Cannot " ++ req.reqMethod ++ chars " " ++ req.reqPath),
      some (chars "NOT_FOUND"), some now, none, none, false⟩⟩

/-! ## Naming policy (`src/services/minioService.js` and the Node `path`
module it calls) -/

/-- Trailing `/` separators of a path, which Node `path` ignores. -/
def dropTrailing (s : List Char) : List Char :=
  (s.reverse.dropWhile (fun c => c = '/')).reverse

/-- The last path segment: what remains of `dropTrailing s` after the last
`/`. -/
def lastSeg (s : List Char) : List Char :=
  ((dropTrailing s).reverse.takeWhile (fun c => c ≠ '/')).reverse

/-- Index of the last `.` of a list, if any. -/
def lastDotIdx : List Char → Option Nat
  | [] => none
  | c :: rest =>
    match lastDotIdx rest with
    | some d => some (d + 1)
    | none => if c = '.' then some 0 else none

/-- Model of Node `path.posix.extname`, as called by
`generateUniqueFilename`: the suffix of the last path segment from its last
`.`, except that a lone leading `.` (a dotfile such as `.bashrc`) and the
segment `..` yield the empty extension.  This closed form agrees with the
scanning loop of Node `lib/path.js`. -/
def extname (s : List Char) : List Char :=
  match lastDotIdx (lastSeg s) with
  | none => []
  | some d => if d = 0 ∨ lastSeg s = ['.', '.'] then [] else (lastSeg s).drop d

/-- Model of Node `path.posix.basename(p, ext)`, as called by
`generateUniqueFilename` with `ext = extname p`: the last path segment,
stripped of the suffix `ext` when `ext` is a proper suffix of the segment.
This closed form agrees with the scanning loop of Node `lib/path.js` on
every argument pair arising from `generateUniqueFilename`. -/
def basename (p ext : List Char) : List Char :=
  if ext.isEmpty || p.length < ext.length then lastSeg p
  else if ext = lastSeg p then lastSeg p
  else if ext.isSuffixOf (lastSeg p) then (lastSeg p).take ((lastSeg p).length - ext.length)
  else lastSeg p

/-- `generateUniqueFilename` of `src/services/minioService.js`.  `Date.now()`
is the explicit parameter `ts`; the first dash-separated group of the random
UUID (`uuidv4().split('-')[0]`, eight lowercase hex characters) is the
explicit parameter `uuidHead`. -/
def generateUniqueFilename (originalName : List Char) (ts : Nat)
    (uuidHead : List Char) : List Char :=
  basename originalName (extname originalName) ++ chars "_" ++ (Nat.repr ts).data ++
    chars "_" ++ uuidHead ++ extname originalName

/-- The object-name computation of `uploadFile`: a non-empty `customPath`
(JavaScript truthiness of the string) is prepended with a `/` separator. -/
def uploadObjectName (customPath uniqueFilename : List Char) : List Char :=
  if customPath.isEmpty then uniqueFilename
  else customPath ++ chars "/" ++ uniqueFilename

/-! ## Storage service (`src/services/minioService.js`) -/

/-- An object record as delivered by the backend list stream. -/
structure RawObj where
  rawName : List Char
  rawSize : Nat
  rawLastModified : Nat
  rawEtag : List Char
deriving DecidableEq

/-- An entry of the `files` array built by `listFiles`. -/
structure ObjSummary where
  name : List Char
  size : Nat
  lastModified : Nat
  etag : List Char
deriving DecidableEq

/-- The projection `listFiles` applies to each streamed object. -/
def summarize (o : RawObj) : ObjSummary :=
  ⟨o.rawName, o.rawSize, o.rawLastModified, o.rawEtag⟩

/-- The result object resolved by `listFiles`. -/
structure ListResult where
  listSuccess : Bool
  files : List ObjSummary
  count : Nat
deriving DecidableEq

/-- The stream fold of `listFiles`: each `data` event pushes a summary while
fewer than `maxKeys` objects have been collected. -/
def listFold (maxKeys : Nat) (stream : List RawObj) : List ObjSummary :=
  stream.foldl (fun acc o => if acc.length < maxKeys then acc ++ [summarize o] else acc) []

/-- `listFiles` of `src/services/minioService.js`.  The backend client is
modelled as a function from the requested object-name filter to the stream
of objects it emits. -/
def listFiles (client : List Char → List RawObj) (pfx : List Char)
    (maxKeys : Nat) : ListResult :=
  let objects := listFold maxKeys (client pfx)
  ⟨true, objects, objects.length⟩

/-- `listFiles` invoked with its default arguments
(`prefix = ''`, `maxKeys = 1000`). -/
def listFilesDefault (client : List Char → List RawObj) : ListResult :=
  listFiles client [] 1000

/-- The result object resolved by `getPresignedUrl`, with `expiresAt`
recorded as the instant in epoch milliseconds that
`new Date(Date.now() + expiry * 1000).toISOString()` serializes. -/
structure UrlResult where
  urlSuccess : Bool
  url : List Char
  expiresIn : Nat
  expiresAtMs : Nat
deriving DecidableEq

/-- `getPresignedUrl` of `src/services/minioService.js`.  The backend signer
`client.presignedGetObject` is modelled as a function `urlOf` of the object
name and expiry; the JavaScript default parameter supplies
`config.presignedUrl.expiry` when the caller passes `undefined`. -/
def getPresignedUrl (urlOf : List Char → Nat → List Char) (defaultExpiry : Nat)
    (objectName : List Char) (expiryArg : Option Nat) (now : Nat) : UrlResult :=
  let expiry := match expiryArg with | some e => e | none => defaultExpiry
  ⟨true, urlOf objectName expiry, expiry, now + expiry * 1000⟩

/-- `config.presignedUrl.expiry` of `src/config.js`:
`parseInt(process.env.PRESIGNED_URL_EXPIRY) || 3600`, with `envVal = none`
standing for an absent or non-numeric variable (`parseInt` yields `NaN`,
which is falsy, as is `0`). -/
def presignedExpiryCfg (envVal : Option Nat) : Nat :=
  match envVal with
  | some n => if n = 0 then 3600 else n
  | none => 3600

/-! ## Multipart decode and controller pipeline

`src/controllers/fileController.js` and `src/app.js` are not present in the
source tree (only their routes, callers and tests are), and the multipart
decoder itself is the external multer library configured by
`src/middleware/upload.js`; these parts are modelled from the specification
as documented below.  The route composition (decoder, then
`handleMulterError`, then the controller, with remaining errors reaching
`errorHandler`) follows `src/routes/fileRoutes.js`. -/

/-- One decoded multipart file part. -/
structure Part where
  originalname : List Char
  mimetype : List Char
  partSize : Nat
deriving DecidableEq

/-- The backend operations a handler can invoke, recorded in order. -/
inductive BackendCall
  | putObject (objectName : List Char)
  | presign (objectName : List Char) (expiryArg : Option Nat)
  | removeObject (objectName : List Char)
  | listObjects (pfx : List Char)
  | statObject (objectName : List Char)
  | bucketExists
deriving DecidableEq

/-- The error produced by a `fileFilter` rejection (a plain `Error`, not a
`MulterError`). -/
def typeRejectErr (allowedTypes : List (List Char)) (mimetype : List Char) : JsErr :=
  ⟨chars "Error", filterMsg allowedTypes mimetype, none, none, none⟩

/-- A `multer.MulterError` with the given code. -/
def multerErr (c : MulterCode) (msg : List Char) : JsErr :=
  ⟨chars "MulterError", msg, some c, none, none⟩

/-- Modelled from the spec: the multipart decode of `upload.single('file')`
(multer, an external library).  Per the spec, the type allow-list and the
size ceiling are "enforced during multipart decode": the configured
`fileFilter` rejects a disallowed type, and a part larger than the
configured `limits.fileSize` aborts the decode with `LIMIT_FILE_SIZE`. -/
def decodeSingle (allowedTypes : List (List Char)) (lim : Rat)
    (part : Option Part) : Except JsErr (Option Part) :=
  match part with
  | none => .ok none
  | some p =>
    if isAllowed allowedTypes p.mimetype then
      if lim < (p.partSize : Rat) then
        .error (multerErr .limitFileSize (chars "File too large"))
      else .ok (some p)
    else .error (typeRejectErr allowedTypes p.mimetype)

/-- Modelled from the spec: the multipart decode of
`upload.array('files', 10)` with `limits.files = 10` (multer, an external
library).  Per the spec, "Maximum 10 files per batch request is a hard
decode-time limit": a batch beyond the limit is rejected with
`LIMIT_FILE_COUNT`; otherwise each part passes the `fileFilter` and the size
ceiling as in the single decode. -/
def decodeMany (allowedTypes : List (List Char)) (lim : Rat) (filesLimit : Nat)
    (parts : List Part) : Except JsErr (List Part) :=
  if filesLimit < parts.length then
    .error (multerErr .limitFileCount (chars "Too many files"))
  else
    parts.foldr
      (fun p acc =>
        if isAllowed allowedTypes p.mimetype then
          if lim < (p.partSize : Rat) then
            .error (multerErr .limitFileSize (chars "File too large"))
          else match acc with
            | .ok fs => .ok (p :: fs)
            | .error e => .error e
        else .error (typeRejectErr allowedTypes p.mimetype))
      (.ok [])

/-- Body of the `NO_FILE` response of the controller. -/
def noFileBody : Body :=
  ⟨false, some (chars "No file provided"), none, some (chars "NO_FILE"),
    none, none, none, false⟩

/-- Body of the `NO_FILES` response of the controller. -/
def noFilesBody : Body :=
  ⟨false, some (chars "No files provided"), none, some (chars "NO_FILES"),
    none, none, none, false⟩

/-- Body of the `MISSING_FILENAME` response of the controller. -/
def missingFilenameBody : Body :=
  ⟨false, some (chars "Filename is required"), none,
    some (chars "MISSING_FILENAME"), none, none, none, false⟩

/-- A 201 success body with the given message (the `data` object is not
modelled field by field). -/
def successBody (msg : List Char) : Body :=
  ⟨true, none, some msg, none, none, none, none, false⟩

/-- Modelled from the spec: `uploadSingle` of
`src/controllers/fileController.js`, which is absent from the source tree.
Per the spec, "`uploadOne` with no payload → `NO_FILE`, no backend call
attempted"; with a payload it derives the object key through the naming
policy, calls `put`, then requests a presigned URL, answering 201.  The unit
tests of the controller pin the `NO_FILE` body and the 400 status. -/
def uploadSingle (file : Option Part) (bodyPath : List Char) (ts : Nat)
    (uuidHead : List Char) : JsonResponse × List BackendCall :=
  match file with
  | none => (⟨400, noFileBody⟩, [])
  | some f =>
    let objectName := uploadObjectName bodyPath (generateUniqueFilename f.originalname ts uuidHead)
    (⟨201, successBody (chars "File uploaded successfully")⟩,
      [.putObject objectName, .presign objectName none])

/-- Modelled from the spec: `uploadMultiple` of
`src/controllers/fileController.js`, which is absent from the source tree.
Per the spec, "`uploadMany` with 0 items → `NO_FILES`"; otherwise each item
is uploaded as in `uploadSingle` and the batch is answered 201.  The unit
tests of the controller pin the `NO_FILES` body and the 400 status. -/
def uploadMultiple (files : List Part) (bodyPath : List Char) (ts : Nat)
    (uuidHead : List Char) : JsonResponse × List BackendCall :=
  if files.isEmpty then (⟨400, noFilesBody⟩, [])
  else
    (⟨201, successBody ((Nat.repr files.length).data ++ chars " files uploaded successfully")⟩,
      files.flatMap (fun f =>
        let objectName := uploadObjectName bodyPath (generateUniqueFilename f.originalname ts uuidHead)
        [BackendCall.putObject objectName, BackendCall.presign objectName none]))

/-- The `POST /api/files/upload` pipeline of `src/routes/fileRoutes.js`:
multipart decode, then `handleMulterError`, then the controller; an error
forwarded by `handleMulterError` reaches the application-level
`errorHandler`.  A decode-time failure never invokes the backend. -/
def uploadSingleRoute (allowedTypes : List (List Char)) (lim : Rat)
    (maxFileSizeStr nodeEnv : List Char) (req : ReqInfo) (now : Nat)
    (part : Option Part) (bodyPath : List Char) (ts : Nat)
    (uuidHead : List Char) : JsonResponse × List BackendCall :=
  match decodeSingle allowedTypes lim part with
  | .error e =>
    match handleMulterError maxFileSizeStr e with
    | .respond r => (r, [])
    | .forward e2 => (errorHandler nodeEnv e2 req now, [])
  | .ok f => uploadSingle f bodyPath ts uuidHead

/-- The `POST /api/files/upload/multiple` pipeline of
`src/routes/fileRoutes.js`, composed like the single-upload pipeline. -/
def uploadMultiRoute (allowedTypes : List (List Char)) (lim : Rat)
    (maxFileSizeStr nodeEnv : List Char) (req : ReqInfo) (now : Nat)
    (parts : List Part) (bodyPath : List Char) (ts : Nat)
    (uuidHead : List Char) : JsonResponse × List BackendCall :=
  match decodeMany allowedTypes lim 10 parts with
  | .error e =>
    match handleMulterError maxFileSizeStr e with
    | .respond r => (r, [])
    | .forward e2 => (errorHandler nodeEnv e2 req now, [])
  | .ok fs => uploadMultiple fs bodyPath ts uuidHead

/-- Modelled from the spec: `getFileUrl` of
`src/controllers/fileController.js`, which is absent from the source tree.
Per the spec, "`getFileUrl` with no `expiry` query parameter uses the
configured default expiry; with `expiry=7200` uses exactly `7200`", and a
missing filename is answered `MISSING_FILENAME`; the unit tests pin that the
service receives `undefined` when the query parameter is absent. -/
def getFileUrl (urlOf : List Char → Nat → List Char) (defaultExpiry : Nat)
    (filename : List Char) (expiryQuery : Option Nat) (now : Nat) :
    (JsonResponse × Option UrlResult) × List BackendCall :=
  if filename.isEmpty then ((⟨400, missingFilenameBody⟩, none), [])
  else
    let r := getPresignedUrl urlOf defaultExpiry filename expiryQuery now
    ((⟨200, successBody (chars "Presigned URL generated successfully")⟩, some r),
      [.presign filename expiryQuery])

/-! ## Claim-side specification predicates

The following definitions follow the words of the specification claims, to
be compared with the definitions translated from the source. -/

/-- The prefix of a media type up to and including its first `/`, when the
type contains one (the claim C1 notion of the type family). -/
def upToSlash (t : List Char) : Option (List Char) :=
  match t.findIdx? (fun c => c = '/') with
  | none => none
  | some i => some (t.take (i + 1))

/-- The acceptance condition exactly as claim C1 states it: the type equals
an entry, or an entry ends in `/*` and the type family (prefix up to and
including the `/`) equals the entry family. -/
def claimTypeAccepts (allowedTypes : List (List Char)) (t : List Char) : Prop :=
  ∃ e ∈ allowedTypes,
    t = e ∨ (['/', '*'].isSuffixOf e = true ∧ upToSlash t = upToSlash e)

/-- The acceptance condition the source implements (claim C1 amended): the
type equals an entry, or an entry is `base ++ "/*"` and the type starts with
`base` as a plain string prefix. -/
def codeTypeAccepts (allowedTypes : List (List Char)) (t : List Char) : Prop :=
  ∃ e ∈ allowedTypes, t = e ∨ ∃ base, e = base ++ ['/', '*'] ∧ base <+: t

/-- Splitting a filename at its last `.`, exactly as claim C3 states it:
no `.` gives an empty extension, multiple `.` keep all leading segments in
the base. -/
def claimSplit (f : List Char) : List Char × List Char :=
  match lastDotIdx f with
  | none => (f, [])
  | some d => (f.take d, f.drop d)

/-- A size string matching the claim C9 pattern, with its byte value: the
string decomposes into digits, an optional fraction, optional whitespace,
and a unit, and the value is the number times the unit bytes. -/
def SizeForm (s : List Char) (v : Rat) : Prop :=
  ∃ ds fsOpt ws u un,
    s = ds ++ fsOpt ++ ws ++ u ∧
    ds ≠ [] ∧ ds.all isJsDigit = true ∧
    (fsOpt = [] ∨ ∃ fs, fs ≠ [] ∧ fs.all isJsDigit = true ∧ fsOpt = '.' :: fs) ∧
    ws.all isJsWs = true ∧
    unitOf u = some un ∧
    v = numVal ds (fsOpt.drop 1) * (unitBytes un : Rat)

/-! ## Helper lemmas -/

/-- A takeWhile over a list whose head fails the predicate is empty. -/
theorem takeWhile_eq_nil_of_head {p : Char → Bool} :
    ∀ {l : List Char}, (∀ c, l.head? = some c → p c = false) → l.takeWhile p = []
  | [], _ => rfl
  | c :: l, h => by
    have hc : p c = false := h c rfl
    simp [List.takeWhile_cons, hc]

/-- A dropWhile over a list whose head fails the predicate is the list. -/
theorem dropWhile_eq_self_of_head {p : Char → Bool} :
    ∀ {l : List Char}, (∀ c, l.head? = some c → p c = false) → l.dropWhile p = l
  | [], _ => rfl
  | c :: l, h => by
    have hc : p c = false := h c rfl
    simp [List.dropWhile_cons, hc]

/-- takeWhile over an all-satisfying block followed by a failing head. -/
theorem takeWhile_block {p : Char → Bool} {l r : List Char}
    (hl : ∀ a ∈ l, p a = true) (hr : ∀ c, r.head? = some c → p c = false) :
    (l ++ r).takeWhile p = l := by
  rw [List.takeWhile_append_of_pos hl, takeWhile_eq_nil_of_head hr, List.append_nil]

/-- dropWhile over an all-satisfying block followed by a failing head. -/
theorem dropWhile_block {p : Char → Bool} {l r : List Char}
    (hl : ∀ a ∈ l, p a = true) (hr : ∀ c, r.head? = some c → p c = false) :
    (l ++ r).dropWhile p = r := by
  rw [List.dropWhile_append_of_pos hl, dropWhile_eq_self_of_head hr]

/-- A request object shared by concrete instantiations. -/
def req0 : ReqInfo := ⟨chars "/api/files/upload", chars "POST"⟩

/-! ## Claim C10 -/

/-- Claim C10: a non-multer error whose message contains `File type` is
answered 400 with code `INVALID_FILE_TYPE` and the message passed through;
every other non-multer error is forwarded unchanged to the next error
handler with no response written. -/
theorem c10_theorem (maxFileSizeStr : List Char) (e : JsErr)
    (hm : e.multerCode = none) :
    (includesL (chars "File type") e.message = true →
      handleMulterError maxFileSizeStr e
        = .respond ⟨400, invalidFileTypeBody e.message⟩) ∧
    (includesL (chars "File type") e.message = false →
      handleMulterError maxFileSizeStr e = .forward e) := by
  unfold handleMulterError
  rw [hm]
  constructor <;> intro h <;> simp [h]

/-- Witness for claim C10 at the concrete errors of the middleware tests. -/
theorem c10_witness :
    handleMulterError (chars "100MB")
        ⟨chars "Error", chars "File type image/gif is not allowed", none, none, none⟩
      = .respond ⟨400, invalidFileTypeBody (chars "File type image/gif is not allowed")⟩ ∧
    handleMulterError (chars "100MB")
        ⟨chars "Error", chars "Some other error", none, none, none⟩
      = .forward ⟨chars "Error", chars "Some other error", none, none, none⟩ :=
  ⟨(c10_theorem (chars "100MB") _ rfl).1 (by decide),
   (c10_theorem (chars "100MB") _ rfl).2 (by decide)⟩

/-! ## Claim C2 -/

/-- Counterexample to claim C2 as stated: the decode-time `FILE_TOO_LARGE`
error body produced by the multipart upload middleware carries no timestamp
field at all, while the claim requires an ISO-8601 timestamp on every error
body including this one. -/
theorem c2_counterexample :
    handleMulterError (chars "100MB") (multerErr .limitFileSize (chars "File too large"))
      = .respond ⟨400, fileTooLargeBody (chars "100MB")⟩ ∧
    (fileTooLargeBody (chars "100MB")).timestampMs = none ∧
    (fileTooLargeBody (chars "100MB")).success = false ∧
    (fileTooLargeBody (chars "100MB")).code = some (chars "FILE_TOO_LARGE") :=
  ⟨rfl, rfl, rfl, rfl⟩

/-- Claim C2 (amended): every error body carries `success: false`, an error
string and a code string; the bodies of the final error handler and of the
404 handler also carry the current-instant timestamp, but the decode-time
bodies of the multipart upload middleware (`FILE_TOO_LARGE`,
`TOO_MANY_FILES`, `UNEXPECTED_FIELD`, `UPLOAD_ERROR`, `INVALID_FILE_TYPE`)
carry a code drawn from the enumerated set and no timestamp. -/
theorem c2_theorem :
    (∀ (nodeEnv : List Char) (e : JsErr) (req : ReqInfo) (now : Nat),
      (errorHandler nodeEnv e req now).body.success = false ∧
      (errorHandler nodeEnv e req now).body.timestampMs = some now ∧
      (errorHandler nodeEnv e req now).body.error.isSome = true ∧
      (errorHandler nodeEnv e req now).body.code.isSome = true) ∧
    (∀ (req : ReqInfo) (now : Nat),
      (notFoundHandler req now).body.success = false ∧
      (notFoundHandler req now).body.timestampMs = some now ∧
      (notFoundHandler req now).body.code = some (chars "NOT_FOUND") ∧
      chars "NOT_FOUND" ∈ knownCodes) ∧
    (∀ (maxFileSizeStr : List Char) (e : JsErr) (r : JsonResponse),
      handleMulterError maxFileSizeStr e = .respond r →
      r.status = 400 ∧ r.body.success = false ∧ r.body.error.isSome = true ∧
      r.body.timestampMs = none ∧
      ∃ c, r.body.code = some c ∧ c ∈ knownCodes) := by
  refine ⟨fun nodeEnv e req now => ?_, fun req now => ?_, fun maxF e r h => ?_⟩
  · simp [errorHandler]
  · refine ⟨rfl, rfl, rfl, by decide⟩
  · unfold handleMulterError at h
    rcases hc : e.multerCode with _ | mc
    · rw [hc] at h
      by_cases hft : includesL (chars "File type") e.message = true
      · rw [if_pos hft] at h
        cases h
        exact ⟨rfl, rfl, rfl, rfl, chars "INVALID_FILE_TYPE", rfl, by decide⟩
      · rw [if_neg hft] at h
        cases h
    · rw [hc] at h
      cases mc <;> cases h
      · exact ⟨rfl, rfl, rfl, rfl, chars "FILE_TOO_LARGE", rfl, by decide⟩
      · exact ⟨rfl, rfl, rfl, rfl, chars "TOO_MANY_FILES", rfl, by decide⟩
      · exact ⟨rfl, rfl, rfl, rfl, chars "UNEXPECTED_FIELD", rfl, by decide⟩
      · exact ⟨rfl, rfl, rfl, rfl, chars "UPLOAD_ERROR", rfl, by decide⟩

/-- Witness for claim C2 (amended) at concrete inputs: the final error
handler stamps the instant, and a concrete multer response satisfies the
middleware body shape. -/
theorem c2_witness :
    (errorHandler (chars "production") ⟨chars "Error", chars "boom", none, none, none⟩
        req0 1700000000000).body.timestampMs = some 1700000000000 ∧
    (⟨400, tooManyFilesBody⟩ : JsonResponse).body.timestampMs = none :=
  ⟨(c2_theorem.1 (chars "production") ⟨chars "Error", chars "boom", none, none, none⟩
      req0 1700000000000).2.1,
   (c2_theorem.2.2 (chars "100MB") (multerErr .limitFileCount (chars "Too many files"))
      ⟨400, tooManyFilesBody⟩ rfl).2.2.2.1⟩

/-! ## Claim C6 -/

/-- Counterexample to claim C6 as stated, at four concrete errors: a
`ValidationError` whose message contains `ECONNREFUSED` is answered 400
`VALIDATION_ERROR`, not 503; a message containing both `ECONNREFUSED` and
`NoSuchBucket` is answered 503, not 500 `BUCKET_NOT_FOUND`; an unrecognized
error carrying its own `statusCode`/`code` properties is answered with
those, not 500 `INTERNAL_ERROR`; and an empty message is replaced by
`Internal Server Error`, not passed through verbatim. -/
theorem c6_counterexample :
    (errorHandler (chars "production")
        ⟨chars "ValidationError", chars "ECONNREFUSED", none, none, none⟩ req0 0).status = 400 ∧
    (errorHandler (chars "production")
        ⟨chars "ValidationError", chars "ECONNREFUSED", none, none, none⟩ req0 0).body.code
      = some (chars "VALIDATION_ERROR") ∧
    (errorHandler (chars "production")
        ⟨chars "Error", chars "ECONNREFUSED NoSuchBucket", none, none, none⟩ req0 0).status = 503 ∧
    (errorHandler (chars "production")
        ⟨chars "Error", chars "boom", none, some 418, some (chars "TEAPOT")⟩ req0 0).status = 418 ∧
    (errorHandler (chars "production")
        ⟨chars "Error", chars "boom", none, some 418, some (chars "TEAPOT")⟩ req0 0).body.code
      = some (chars "TEAPOT") ∧
    (errorHandler (chars "production")
        ⟨chars "Error", [], none, none, none⟩ req0 0).body.error
      = some (chars "Internal Server Error") := by
  refine ⟨?_, ?_, ?_, ?_, ?_, ?_⟩ <;> decide

/-- Claim C6 (amended): for errors whose name is neither `ValidationError`
nor `UnauthorizedError`, the substring checks apply in order with the first
match winning: `ECONNREFUSED` gives 503 `SERVICE_UNAVAILABLE`; otherwise
`NoSuchBucket` gives 500 `BUCKET_NOT_FOUND`; otherwise `AccessDenied` gives
403 `ACCESS_DENIED`; an error matching none of the recognized kinds that
carries no own `statusCode` or `code` property is answered 500
`INTERNAL_ERROR` with a non-empty message passed through verbatim. -/
theorem c6_theorem (nodeEnv : List Char) (e : JsErr) (req : ReqInfo) (now : Nat)
    (h1 : e.name ≠ chars "ValidationError")
    (h2 : e.name ≠ chars "UnauthorizedError") :
    (includesL (chars "ECONNREFUSED") e.message = true →
      (errorHandler nodeEnv e req now).status = 503 ∧
      (errorHandler nodeEnv e req now).body.code = some (chars "SERVICE_UNAVAILABLE")) ∧
    (includesL (chars "ECONNREFUSED") e.message = false →
      includesL (chars "NoSuchBucket") e.message = true →
      (errorHandler nodeEnv e req now).status = 500 ∧
      (errorHandler nodeEnv e req now).body.code = some (chars "BUCKET_NOT_FOUND")) ∧
    (includesL (chars "ECONNREFUSED") e.message = false →
      includesL (chars "NoSuchBucket") e.message = false →
      includesL (chars "AccessDenied") e.message = true →
      (errorHandler nodeEnv e req now).status = 403 ∧
      (errorHandler nodeEnv e req now).body.code = some (chars "ACCESS_DENIED")) ∧
    (includesL (chars "ECONNREFUSED") e.message = false →
      includesL (chars "NoSuchBucket") e.message = false →
      includesL (chars "AccessDenied") e.message = false →
      e.statusCode = none → e.code = none → e.message ≠ [] →
      (errorHandler nodeEnv e req now).status = 500 ∧
      (errorHandler nodeEnv e req now).body.code = some (chars "INTERNAL_ERROR") ∧
      (errorHandler nodeEnv e req now).body.error = some e.message) := by
  refine ⟨fun hE => ?_, fun hE hN => ?_, fun hE hN hA => ?_, fun hE hN hA hs hc hm => ?_⟩
  · simp [errorHandler, h1, h2, hE]
  · simp [errorHandler, h1, h2, hE, hN]
  · simp [errorHandler, h1, h2, hE, hN, hA]
  · have hme : e.message.isEmpty = false := by
      cases hml : e.message with
      | nil => exact absurd hml hm
      | cons a l => rfl
    simp [errorHandler, h1, h2, hE, hN, hA, hs, hc, hme]

/-- Witness for claim C6 (amended) at concrete errors reproducing each
branch. -/
theorem c6_witness :
    (errorHandler (chars "production")
        ⟨chars "Error", chars "connect ECONNREFUSED 127.0.0.1:9000", none, none, none⟩
        req0 0).status = 503 ∧
    (errorHandler (chars "production")
        ⟨chars "Error", chars "NoSuchBucket: bucket missing", none, none, none⟩
        req0 0).body.code = some (chars "BUCKET_NOT_FOUND") ∧
    (errorHandler (chars "production")
        ⟨chars "Error", chars "AccessDenied: no", none, none, none⟩
        req0 0).status = 403 ∧
    (errorHandler (chars "production")
        ⟨chars "Error", chars "boom", none, none, none⟩ req0 0).body.error
      = some (chars "boom") :=
  ⟨((c6_theorem (chars "production") _ req0 0 (by decide) (by decide)).1 (by decide)).1,
   ((c6_theorem (chars "production") _ req0 0 (by decide) (by decide)).2.1 (by decide)
      (by decide)).2,
   ((c6_theorem (chars "production") _ req0 0 (by decide) (by decide)).2.2.1 (by decide)
      (by decide) (by decide)).1,
   ((c6_theorem (chars "production") _ req0 0 (by decide) (by decide)).2.2.2 (by decide)
      (by decide) (by decide) rfl rfl (by decide)).2.2⟩

/-! ## Claim C7 -/

/-- The guarded fold of `listFiles` never grows past `maxKeys`. -/
theorem listFold_go_length (maxKeys : Nat) :
    ∀ (stream : List RawObj) (acc : List ObjSummary), acc.length ≤ maxKeys →
      (stream.foldl
        (fun acc o => if acc.length < maxKeys then acc ++ [summarize o] else acc)
        acc).length ≤ maxKeys
  | [], acc, h => h
  | o :: stream, acc, h => by
    rw [List.foldl_cons]
    by_cases hlt : acc.length < maxKeys
    · exact listFold_go_length maxKeys stream _ (by simp [hlt]; omega)
    · exact listFold_go_length maxKeys stream _ (by simp [hlt]; omega)

/-- Every element the guarded fold collects is a summary of a streamed
object or was in the accumulator already. -/
theorem listFold_go_mem (maxKeys : Nat) :
    ∀ (stream : List RawObj) (acc : List ObjSummary) (f : ObjSummary),
      f ∈ stream.foldl
        (fun acc o => if acc.length < maxKeys then acc ++ [summarize o] else acc)
        acc →
      f ∈ acc ∨ ∃ o ∈ stream, f = summarize o
  | [], acc, f, h => Or.inl h
  | o :: stream, acc, f, h => by
    rw [List.foldl_cons] at h
    rcases listFold_go_mem maxKeys stream _ f h with hacc | ⟨o2, ho2, rfl⟩
    · by_cases hlt : acc.length < maxKeys
      · rw [if_pos hlt] at hacc
        rcases List.mem_append.mp hacc with h1 | h1
        · exact Or.inl h1
        · exact Or.inr ⟨o, List.mem_cons_self o stream, (List.mem_singleton.mp h1)⟩
      · rw [if_neg hlt] at hacc
        exact Or.inl hacc
    · exact Or.inr ⟨o2, List.mem_cons_of_mem o ho2, rfl⟩

/-- Claim C7: for every prefix and limit (default 1000), the list operation
returns at most `limit` entries, each a key/size/lastModified/etag summary
of a streamed backend object, and the returned count equals the length of
the returned list. -/
theorem c7_theorem (client : List Char → List RawObj) (pfx : List Char)
    (maxKeys : Nat) :
    (listFiles client pfx maxKeys).count = (listFiles client pfx maxKeys).files.length ∧
    (listFiles client pfx maxKeys).files.length ≤ maxKeys ∧
    (∀ f ∈ (listFiles client pfx maxKeys).files, ∃ o ∈ client pfx, f = summarize o) ∧
    listFilesDefault client = listFiles client [] 1000 := by
  refine ⟨rfl, ?_, ?_, rfl⟩
  · exact listFold_go_length maxKeys (client pfx) [] (Nat.zero_le _)
  · intro f hf
    rcases listFold_go_mem maxKeys (client pfx) [] f hf with h | h
    · cases h
    · exact h

/-- Witness for claim C7 at a concrete two-object stream with limit 1. -/
theorem c7_witness :
    (listFiles
        (fun _ => [⟨chars "a.mp4", 5, 0, chars "e1"⟩, ⟨chars "b.mp4", 6, 0, chars "e2"⟩])
        [] 1).files.length ≤ 1 ∧
    ∃ o ∈ [(⟨chars "a.mp4", 5, 0, chars "e1"⟩ : RawObj), ⟨chars "b.mp4", 6, 0, chars "e2"⟩],
      (⟨chars "a.mp4", 5, 0, chars "e1"⟩ : ObjSummary) = summarize o :=
  ⟨(c7_theorem (fun _ => [⟨chars "a.mp4", 5, 0, chars "e1"⟩, ⟨chars "b.mp4", 6, 0, chars "e2"⟩])
      [] 1).2.1,
   (c7_theorem (fun _ => [⟨chars "a.mp4", 5, 0, chars "e1"⟩, ⟨chars "b.mp4", 6, 0, chars "e2"⟩])
      [] 1).2.2.1 ⟨chars "a.mp4", 5, 0, chars "e1"⟩ (by decide)⟩

/-! ## Claim C8 -/

/-- Claim C8: the get-access-URL operation without an expiry query uses the
configured default expiry (3600 unless overridden), with `expiry=7200` uses
exactly 7200, and the returned expiry instant is the call time plus the
expiry in seconds. -/
theorem c8_theorem (urlOf : List Char → Nat → List Char) (defaultExpiry : Nat)
    (filename : List Char) (now : Nat) (h : filename.isEmpty = false) :
    getFileUrl urlOf defaultExpiry filename none now
      = ((⟨200, successBody (chars "Presigned URL generated successfully")⟩,
          some (getPresignedUrl urlOf defaultExpiry filename none now)),
         [.presign filename none]) ∧
    (getPresignedUrl urlOf defaultExpiry filename none now).expiresIn = defaultExpiry ∧
    (getPresignedUrl urlOf defaultExpiry filename none now).expiresAtMs
      = now + defaultExpiry * 1000 ∧
    (getPresignedUrl urlOf defaultExpiry filename (some 7200) now).expiresIn = 7200 ∧
    (getPresignedUrl urlOf defaultExpiry filename (some 7200) now).expiresAtMs
      = now + 7200 * 1000 ∧
    presignedExpiryCfg none = 3600 := by
  refine ⟨?_, rfl, rfl, rfl, rfl, rfl⟩
  simp [getFileUrl, h]

/-- Witness for claim C8 at a concrete filename and instant. -/
theorem c8_witness :
    (getPresignedUrl (fun _ _ => []) 3600 (chars "test.mp4") none 1700000000000).expiresAtMs
      = 1700000000000 + 3600 * 1000 ∧
    (getPresignedUrl (fun _ _ => []) 3600 (chars "test.mp4") (some 7200)
        1700000000000).expiresIn = 7200 :=
  ⟨(c8_theorem (fun _ _ => []) 3600 (chars "test.mp4") 1700000000000 rfl).2.2.1,
   (c8_theorem (fun _ _ => []) 3600 (chars "test.mp4") 1700000000000 rfl).2.2.2.1⟩

/-! ## Claim C5 -/

/-- Claim C5: single upload with no payload answers 400 `NO_FILE` with no
backend call; multi upload with an empty list answers 400 `NO_FILES` with no
backend call; a batch of 11 or more parts is rejected at decode time with
`TOO_MANY_FILES` before any controller or backend work. -/
theorem c5_theorem :
    (∀ (bodyPath : List Char) (ts : Nat) (uuidHead : List Char),
      uploadSingle none bodyPath ts uuidHead = (⟨400, noFileBody⟩, [])) ∧
    (∀ (bodyPath : List Char) (ts : Nat) (uuidHead : List Char),
      uploadMultiple [] bodyPath ts uuidHead = (⟨400, noFilesBody⟩, [])) ∧
    (∀ (allowedTypes : List (List Char)) (lim : Rat) (maxFileSizeStr nodeEnv : List Char)
      (req : ReqInfo) (now : Nat) (parts : List Part) (bodyPath : List Char) (ts : Nat)
      (uuidHead : List Char), 11 ≤ parts.length →
      uploadMultiRoute allowedTypes lim maxFileSizeStr nodeEnv req now parts bodyPath ts uuidHead
        = (⟨400, tooManyFilesBody⟩, [])) := by
  refine ⟨fun _ _ _ => rfl, fun _ _ _ => rfl,
    fun allowedTypes lim maxF env req now parts bodyPath ts uuidHead h => ?_⟩
  unfold uploadMultiRoute decodeMany
  rw [if_pos (by omega)]
  rfl

/-- Witness for claim C5 at a concrete batch of eleven parts. -/
theorem c5_witness :
    uploadMultiRoute [chars "video/*"] ((1000 : Nat) : Rat) (chars "1000B")
        (chars "production") req0 0
        (List.replicate 11 (⟨chars "a.mp4", chars "video/mp4", 1⟩ : Part)) [] 0
        (chars "abcdef12")
      = (⟨400, tooManyFilesBody⟩, []) ∧
    uploadSingle none [] 0 (chars "abcdef12") = (⟨400, noFileBody⟩, []) :=
  ⟨c5_theorem.2.2 [chars "video/*"] ((1000 : Nat) : Rat) (chars "1000B")
      (chars "production") req0 0 _ [] 0 (chars "abcdef12") (by decide),
   c5_theorem.1 [] 0 (chars "abcdef12")⟩

/-! ## Claim C4 -/

/-- Claim C4: for a part of an allowed type, the decode accepts a declared
size `s` against ceiling `maxBytes` exactly when `s ≤ maxBytes` (the
boundary is inclusive), and a part of size `maxBytes + 1` is answered 400
`FILE_TOO_LARGE` by the upload pipeline with no backend call (the rejection
happens at decode time, before any storage operation). -/
theorem c4_theorem (allowedTypes : List (List Char)) (maxBytes : Nat) (p : Part)
    (maxFileSizeStr nodeEnv : List Char) (req : ReqInfo) (now : Nat)
    (bodyPath : List Char) (ts : Nat) (uuidHead : List Char)
    (hType : isAllowed allowedTypes p.mimetype = true) :
    ((∃ f, decodeSingle allowedTypes (maxBytes : Rat) (some p) = .ok f)
      ↔ p.partSize ≤ maxBytes) ∧
    (p.partSize = maxBytes + 1 →
      uploadSingleRoute allowedTypes (maxBytes : Rat) maxFileSizeStr nodeEnv req now
          (some p) bodyPath ts uuidHead
        = (⟨400, fileTooLargeBody maxFileSizeStr⟩, [])) := by
  have hd : decodeSingle allowedTypes (maxBytes : Rat) (some p)
      = if (maxBytes : Rat) < (p.partSize : Rat) then
          .error (multerErr .limitFileSize (chars "File too large"))
        else .ok (some p) := by
    simp [decodeSingle, hType]
  constructor
  · rw [hd]
    constructor
    · rintro ⟨f, hf⟩
      by_cases hlt : (maxBytes : Rat) < (p.partSize : Rat)
      · rw [if_pos hlt] at hf
        cases hf
      · exact_mod_cast not_lt.mp hlt
    · intro hle
      rw [if_neg (by exact_mod_cast not_lt.mpr hle)]
      exact ⟨some p, rfl⟩
  · intro hsz
    unfold uploadSingleRoute
    rw [hd, if_pos (by rw [hsz]; exact_mod_cast Nat.lt_succ_self maxBytes)]
    rfl

/-- Witness for claim C4 at the boundary sizes 1000 and 1001 of the spec
example. -/
theorem c4_witness :
    (∃ f, decodeSingle [chars "video/*"] ((1000 : Nat) : Rat)
        (some ⟨chars "a.mp4", chars "video/mp4", 1000⟩) = .ok f) ∧
    uploadSingleRoute [chars "video/*"] ((1000 : Nat) : Rat) (chars "1000B")
        (chars "production") req0 0
        (some ⟨chars "a.mp4", chars "video/mp4", 1001⟩) [] 0 (chars "abcdef12")
      = (⟨400, fileTooLargeBody (chars "1000B")⟩, []) :=
  ⟨(c4_theorem [chars "video/*"] 1000 ⟨chars "a.mp4", chars "video/mp4", 1000⟩
      (chars "1000B") (chars "production") req0 0 [] 0 (chars "abcdef12")
      (by decide)).1.mpr (le_refl 1000),
   (c4_theorem [chars "video/*"] 1000 ⟨chars "a.mp4", chars "video/mp4", 1001⟩
      (chars "1000B") (chars "production") req0 0 [] 0 (chars "abcdef12")
      (by decide)).2 rfl⟩

/-! ## Claim C1 -/

/-- Per-entry acceptance of `fileFilter`, characterized declaratively. -/
theorem entry_accepts_iff (e t : List Char) :
    (if ['/', '*'].isSuffixOf e then e.dropLast.dropLast.isPrefixOf t else t == e)
      = true
    ↔ (t = e ∨ ∃ base, e = base ++ ['/', '*'] ∧ base <+: t) := by
  by_cases h : ['/', '*'].isSuffixOf e = true
  · rw [if_pos h]
    obtain ⟨base, rfl⟩ : ∃ base, e = base ++ ['/', '*'] := by
      obtain ⟨b, hb⟩ := List.isSuffixOf_iff_suffix.mp h
      exact ⟨b, hb.symm⟩
    have hdrop : (base ++ ['/', '*']).dropLast.dropLast = base := by
      have : base ++ ['/', '*'] = (base ++ ['/']) ++ ['*'] := by simp
      rw [this, List.dropLast_concat, List.dropLast_concat]
    rw [hdrop, List.isPrefixOf_iff_prefix]
    constructor
    · intro hp
      exact Or.inr ⟨base, rfl, hp⟩
    · rintro (rfl | ⟨base2, heq, hp⟩)
      · exact List.prefix_append base ['/', '*']
      · rwa [List.append_cancel_right heq]
  · rw [if_neg h, beq_iff_eq]
    constructor
    · intro hq
      exact Or.inl hq
    · rintro (rfl | ⟨base, rfl, _⟩)
      · rfl
      · exact absurd (List.isSuffixOf_iff_suffix.mpr (List.suffix_append base ['/', '*'])) h

/-- Counterexample to claim C1 as stated: the filter accepts `videos/mp4`
against the allow-list `["video/*", "application/pdf"]`, although
`videos/mp4` is outside the `video/` family, because the source compares
with `startsWith("video")` rather than `startsWith("video/")`. -/
theorem c1_counterexample :
    isAllowed [chars "video/*", chars "application/pdf"] (chars "videos/mp4") = true ∧
    ¬ claimTypeAccepts [chars "video/*", chars "application/pdf"] (chars "videos/mp4") := by
  constructor
  · decide
  · unfold claimTypeAccepts
    decide

/-- Claim C1 (amended): the filter accepts a type exactly when it equals an
allow-list entry, or an entry has the shape `base ++ "/*"` and the type
starts with `base` as a plain string prefix (the `/` need not follow, so
`videos/mp4` and the bare type `video` are also accepted by `video/*`); the
spec examples `video/mp4`, `application/pdf` accepted and `image/gif`
rejected still hold. -/
theorem c1_theorem (allowedTypes : List (List Char)) (t : List Char) :
    isAllowed allowedTypes t = true ↔ codeTypeAccepts allowedTypes t := by
  unfold isAllowed codeTypeAccepts
  rw [List.any_eq_true]
  exact exists_congr fun e => and_congr_right fun _ => entry_accepts_iff e t

/-- Spec examples for claim C1, evaluated on the translated filter. -/
theorem c1_examples :
    isAllowed [chars "video/*", chars "application/pdf"] (chars "video/mp4") = true ∧
    isAllowed [chars "video/*", chars "application/pdf"] (chars "image/gif") = false ∧
    isAllowed [chars "video/*", chars "application/pdf"] (chars "application/pdf") = true := by
  refine ⟨?_, ?_, ?_⟩ <;> decide

/-! ## Claim C3 -/

/-- A takeWhile over a list all of whose elements satisfy the predicate is
the list itself. -/
theorem takeWhile_eq_self_of_all {p : Char → Bool} :
    ∀ {l : List Char}, (∀ a ∈ l, p a = true) → l.takeWhile p = l
  | [], _ => rfl
  | c :: l, h => by
    have hc : p c = true := h c (List.mem_cons_self c l)
    simp only [List.takeWhile_cons, hc, if_true]
    rw [takeWhile_eq_self_of_all fun a ha => h a (List.mem_cons_of_mem c ha)]

/-- A dropWhile over a list none of whose elements satisfy the predicate is
the list itself. -/
theorem dropWhile_eq_self_of_all {p : Char → Bool} {l : List Char}
    (h : ∀ a ∈ l, p a = false) : l.dropWhile p = l := by
  cases l with
  | nil => rfl
  | cons a l =>
    have ha : p a = false := h a (List.mem_cons_self a l)
    simp [List.dropWhile_cons, ha]

/-- A filename containing no `/` is its own last path segment. -/
theorem lastSeg_eq_self {f : List Char} (h : '/' ∉ f) : lastSeg f = f := by
  have h1 : ∀ a ∈ f.reverse, decide (a = '/') = false := by
    intro a ha
    simp only [decide_eq_false_iff_not]
    intro heq
    exact h (heq ▸ List.mem_reverse.mp ha)
  have h2 : ∀ a ∈ f.reverse, decide (a ≠ '/') = true := by
    intro a ha
    simp only [ne_eq, decide_not, Bool.not_eq_true']
    exact h1 a ha
  unfold lastSeg dropTrailing
  rw [dropWhile_eq_self_of_all h1, List.reverse_reverse,
    takeWhile_eq_self_of_all h2, List.reverse_reverse]

/-- The index of the last dot is a position of the list. -/
theorem lastDotIdx_lt : ∀ {l : List Char} {d : Nat}, lastDotIdx l = some d → d < l.length
  | [], _, h => by cases h
  | c :: rest, d, h => by
    unfold lastDotIdx at h
    cases hr : lastDotIdx rest with
    | some d2 =>
      rw [hr] at h
      cases h
      exact Nat.succ_lt_succ (lastDotIdx_lt hr)
    | none =>
      rw [hr] at h
      by_cases hc : c = '.'
      · rw [if_pos hc] at h
        cases h
        exact Nat.succ_pos _
      · rw [if_neg hc] at h
        cases h

/-- When the last dot sits at index zero, the head is the dot. -/
theorem lastDotIdx_zero {c : Char} {rest : List Char}
    (h : lastDotIdx (c :: rest) = some 0) : c = '.' := by
  unfold lastDotIdx at h
  cases hr : lastDotIdx rest with
  | some d2 =>
    rw [hr] at h
    cases h
  | none =>
    rw [hr] at h
    by_cases hc : c = '.'
    · exact hc
    · rw [if_neg hc] at h
      cases h

/-- A list is a suffix of anything appended to its left. -/
theorem suffix_of_append_left {t r : List Char} (l : List Char) (h : t <:+ r) :
    t <:+ l ++ r :=
  h.trans (List.suffix_append l r)

/-- Counterexample to claim C3 as stated: for the dotfile `.bashrc` the key
produced is `.bashrc_<ts>_<suffix>` with an empty extension, because Node
`path.extname` treats a lone leading dot as no extension, while splitting at
the last `.` as the claim prescribes would give base `""` and extension
`.bashrc`, demanding `_<ts>_<suffix>.bashrc`; in particular the key does not
end with the claim-side extension. -/
theorem c3_counterexample :
    generateUniqueFilename (chars ".bashrc") 123 (chars "abcdef12")
      = chars ".bashrc_123_abcdef12" ∧
    claimSplit (chars ".bashrc") = ([], chars ".bashrc") ∧
    generateUniqueFilename (chars ".bashrc") 123 (chars "abcdef12")
      ≠ (claimSplit (chars ".bashrc")).1 ++ chars "_" ++ (Nat.repr 123).data ++
          chars "_" ++ chars "abcdef12" ++ (claimSplit (chars ".bashrc")).2 ∧
    (claimSplit (chars ".bashrc")).2.isSuffixOf
        (generateUniqueFilename (chars ".bashrc") 123 (chars "abcdef12")) = false := by
  refine ⟨?_, ?_, ?_, ?_⟩ <;> decide

/-- Claim C3 (amended): for every non-empty original filename that contains
no `/` and does not begin with `.`, the generated key is
`base_<epochMillisTimestamp>_<suffix><extension>` with base and extension
obtained by splitting at the last `.` (no `.` gives an empty extension,
multiple `.` keep all leading segments in the base); a non-empty destination
path is prepended with a `/`; and the key ends with the same extension. -/
theorem c3_theorem (f p : List Char) (ts : Nat) (uuidHead : List Char)
    (hne : f ≠ []) (hslash : '/' ∉ f) (hdot : f.head? ≠ some '.') :
    generateUniqueFilename f ts uuidHead
      = (claimSplit f).1 ++ chars "_" ++ (Nat.repr ts).data ++ chars "_" ++
          uuidHead ++ (claimSplit f).2 ∧
    (claimSplit f).2.isSuffixOf (generateUniqueFilename f ts uuidHead) = true ∧
    uploadObjectName p (generateUniqueFilename f ts uuidHead)
      = (if p = [] then generateUniqueFilename f ts uuidHead
         else p ++ chars "/" ++ generateUniqueFilename f ts uuidHead) := by
  have hseg : lastSeg f = f := lastSeg_eq_self hslash
  have hobj : uploadObjectName p (generateUniqueFilename f ts uuidHead)
      = (if p = [] then generateUniqueFilename f ts uuidHead
         else p ++ chars "/" ++ generateUniqueFilename f ts uuidHead) := by
    unfold uploadObjectName
    by_cases hp : p = []
    · simp [hp]
    · simp [hp, List.isEmpty_eq_false.mpr hp]
  cases hld : lastDotIdx f with
  | none =>
    have hext : extname f = [] := by
      unfold extname
      rw [hseg, hld]
    have hcs : claimSplit f = (f, []) := by
      unfold claimSplit
      rw [hld]
    have hbase : basename f (extname f) = f := by
      rw [hext]
      unfold basename
      rw [hseg]
      simp
    have hkey : generateUniqueFilename f ts uuidHead
        = f ++ chars "_" ++ (Nat.repr ts).data ++ chars "_" ++ uuidHead ++ [] := by
      unfold generateUniqueFilename
      rw [hbase, hext]
    refine ⟨?_, ?_, hobj⟩
    · rw [hkey, hcs]
    · rw [hcs]
      exact List.isSuffixOf_iff_suffix.mpr List.nil_suffix
  | some d =>
    have hdlt : d < f.length := lastDotIdx_lt hld
    have hd0 : d ≠ 0 := by
      intro h0
      subst h0
      cases f with
      | nil => exact hne rfl
      | cons c rest =>
        apply hdot
        rw [lastDotIdx_zero hld]
        rfl
    have hflen : 0 < f.length := Nat.lt_of_le_of_lt (Nat.zero_le d) hdlt
    have hne2 : f ≠ ['.', '.'] := by
      intro h2
      apply hdot
      rw [h2]
      rfl
    have hext : extname f = f.drop d := by
      unfold extname
      rw [hseg, hld]
      show (if d = 0 ∨ f = ['.', '.'] then [] else f.drop d) = f.drop d
      rw [if_neg]
      rintro (h0 | h2)
      · exact hd0 h0
      · exact hne2 h2
    have hdroplen : (f.drop d).length = f.length - d := List.length_drop d f
    have hextne : f.drop d ≠ [] := by
      intro hnil
      have := congrArg List.length hnil
      rw [hdroplen] at this
      simp at this
      omega
    have hnoteq : f.drop d ≠ f := by
      intro heq
      have := congrArg List.length heq
      rw [hdroplen] at this
      omega
    have hsuff : (f.drop d).isSuffixOf f = true :=
      List.isSuffixOf_iff_suffix.mpr (List.drop_suffix d f)
    have hbase : basename f (f.drop d) = f.take d := by
      unfold basename
      rw [hseg]
      rw [if_neg, if_neg hnoteq, if_pos hsuff, hdroplen]
      · congr 1
        omega
      · simp only [Bool.or_eq_true, not_or]
        constructor
        · simp [List.isEmpty_eq_false.mpr hextne]
        · simp only [decide_eq_true_eq, not_lt]
          omega
    have hcs : claimSplit f = (f.take d, f.drop d) := by
      unfold claimSplit
      rw [hld]
    have hkey : generateUniqueFilename f ts uuidHead
        = f.take d ++ chars "_" ++ (Nat.repr ts).data ++ chars "_" ++ uuidHead ++
            f.drop d := by
      unfold generateUniqueFilename
      rw [hext, hbase]
    refine ⟨?_, ?_, hobj⟩
    · rw [hkey, hcs]
    · rw [hcs, hkey]
      apply List.isSuffixOf_iff_suffix.mpr
      exact suffix_of_append_left _ (List.suffix_refl _)

/-- Witness for claim C3 (amended) at the spec round-trip filename
`clip.mp4` with a destination path. -/
theorem c3_witness :
    generateUniqueFilename (chars "clip.mp4") 123 (chars "abcdef12")
      = (claimSplit (chars "clip.mp4")).1 ++ chars "_" ++ (Nat.repr 123).data ++
          chars "_" ++ chars "abcdef12" ++ (claimSplit (chars "clip.mp4")).2 ∧
    uploadObjectName (chars "videos/2024") (generateUniqueFilename (chars "clip.mp4") 123
        (chars "abcdef12"))
      = (if chars "videos/2024" = [] then
           generateUniqueFilename (chars "clip.mp4") 123 (chars "abcdef12")
         else chars "videos/2024" ++ chars "/" ++
           generateUniqueFilename (chars "clip.mp4") 123 (chars "abcdef12")) :=
  ⟨(c3_theorem (chars "clip.mp4") (chars "videos/2024") 123 (chars "abcdef12")
      (by decide) (by decide) (by decide)).1,
   (c3_theorem (chars "clip.mp4") (chars "videos/2024") 123 (chars "abcdef12")
      (by decide) (by decide) (by decide)).2.2⟩

/-! ## Claim C9 -/

/-- A whitespace character is not a digit. -/
theorem isJsWs_not_digit {c : Char} (h : isJsWs c = true) : isJsDigit c = false := by
  simp only [isJsWs, Bool.or_eq_true, beq_iff_eq, Bool.and_eq_true,
    decide_eq_true_eq] at h
  simp only [isJsDigit, Bool.and_eq_true, decide_eq_true_eq, Bool.and_eq_false_iff,
    decide_eq_false_iff_not]
  omega

/-- A whitespace character is not a dot. -/
theorem isJsWs_ne_dot {c : Char} (h : isJsWs c = true) : c ≠ '.' := by
  intro heq
  subst heq
  exact absurd h (by decide)

/-- The first character of a recognised unit, with its possible codes. -/
theorem unitOf_shape {u : List Char} {un : SizeUnit} (h : unitOf u = some un) :
    ∃ c r, u = c :: r ∧
      (c.toNat = 66 ∨ c.toNat = 98 ∨ c.toNat = 75 ∨ c.toNat = 107 ∨
       c.toNat = 77 ∨ c.toNat = 109 ∨ c.toNat = 71 ∨ c.toNat = 103) := by
  cases u with
  | nil => simp [unitOf] at h
  | cons c r =>
    refine ⟨c, r, rfl, ?_⟩
    have hup : toUpperNat c.toNat = 66 ∨ toUpperNat c.toNat = 75 ∨
        toUpperNat c.toNat = 77 ∨ toUpperNat c.toNat = 71 := by
      unfold unitOf at h
      rw [List.map_cons] at h
      split at h
      · rename_i heq
        rw [List.cons.injEq] at heq
        exact Or.inl heq.1
      · rename_i heq
        rw [List.cons.injEq] at heq
        exact Or.inr (Or.inl heq.1)
      · rename_i heq
        rw [List.cons.injEq] at heq
        exact Or.inr (Or.inr (Or.inl heq.1))
      · rename_i heq
        rw [List.cons.injEq] at heq
        exact Or.inr (Or.inr (Or.inr heq.1))
      · cases h
    unfold toUpperNat at hup
    split at hup <;> omega

/-- The first character of a recognised unit is a letter: not a digit, not
whitespace, not a dot. -/
theorem unitOf_head {u : List Char} {un : SizeUnit} (h : unitOf u = some un) :
    ∀ c, u.head? = some c → isJsDigit c = false ∧ isJsWs c = false ∧ c ≠ '.' := by
  obtain ⟨c0, r, rfl, hx⟩ := unitOf_shape h
  intro c hc
  simp only [List.head?_cons, Option.some.injEq] at hc
  subst hc
  refine ⟨?_, ?_, ?_⟩
  · simp only [isJsDigit, Bool.and_eq_false_iff, decide_eq_false_iff_not]
    omega
  · simp only [isJsWs, Bool.or_eq_false_iff, beq_eq_false_iff_ne, ne_eq,
      Bool.and_eq_false_iff, decide_eq_false_iff_not]
    omega
  · intro heq
    rw [heq] at hx
    have h46 : ('.' : Char).toNat = 46 := by decide
    omega

/-- The head of whitespace followed by a unit is not a digit. -/
theorem wsu_head_not_digit {ws u : List Char} {un : SizeUnit}
    (hws : ws.all isJsWs = true) (hu : unitOf u = some un) :
    ∀ c, (ws ++ u).head? = some c → isJsDigit c = false := by
  cases ws with
  | nil =>
    intro c hc
    rw [List.nil_append] at hc
    exact (unitOf_head hu c hc).1
  | cons w ws2 =>
    intro c hc
    simp only [List.cons_append, List.head?_cons, Option.some.injEq] at hc
    subst hc
    exact isJsWs_not_digit (List.all_eq_true.mp hws _ (List.mem_cons_self _ _))

/-- The head of whitespace followed by a unit is not a dot. -/
theorem wsu_head_ne_dot {ws u : List Char} {un : SizeUnit}
    (hws : ws.all isJsWs = true) (hu : unitOf u = some un) :
    ∀ c, (ws ++ u).head? = some c → c ≠ '.' := by
  cases ws with
  | nil =>
    intro c hc
    rw [List.nil_append] at hc
    exact (unitOf_head hu c hc).2.2
  | cons w ws2 =>
    intro c hc
    simp only [List.cons_append, List.head?_cons, Option.some.injEq] at hc
    subst hc
    exact isJsWs_ne_dot (List.all_eq_true.mp hws _ (List.mem_cons_self _ _))

/-- Soundness half for claim C9: a string of the claim shape is matched by
the translated regex with the claimed value. -/
theorem sizeform_match {s : List Char} {v : Rat} (h : SizeForm s v) :
    ∃ n un, matchSize s = some (n, un) ∧ v = n * (unitBytes un : Rat) := by
  obtain ⟨ds, fsOpt, ws, u, un, rfl, hds, hdig, hfs, hws, hu, rfl⟩ := h
  have hdsall : ∀ a ∈ ds, isJsDigit a = true := List.all_eq_true.mp hdig
  rcases hfs with rfl | ⟨fs, hfsne, hfsdig, rfl⟩
  · -- no fractional part: the remainder after the digits is ws ++ u
    have hrest : ds ++ [] ++ ws ++ u = ds ++ (ws ++ u) := by simp
    rw [hrest]
    have htake : (ds ++ (ws ++ u)).takeWhile isJsDigit = ds :=
      takeWhile_block hdsall (wsu_head_not_digit hws hu)
    have hdrop : (ds ++ (ws ++ u)).dropWhile isJsDigit = ws ++ u :=
      dropWhile_block hdsall (wsu_head_not_digit hws hu)
    have hhead : ¬ ((ws ++ u).head? = some '.') := by
      intro hc
      exact wsu_head_ne_dot hws hu '.' hc rfl
    have hwsall : ∀ a ∈ ws, isJsWs a = true := List.all_eq_true.mp hws
    have hdropws : (ws ++ u).dropWhile isJsWs = u :=
      dropWhile_block hwsall (fun c hc => (unitOf_head hu c hc).2.1)
    refine ⟨numVal ds [], un, ?_, by simp⟩
    unfold matchSize
    rw [htake, hdrop, List.isEmpty_eq_false.mpr hds, if_neg (by simp), if_neg hhead,
      hdropws, hu]
    rfl
  · -- fractional part present: the remainder starts with the dot
    have hfsall : ∀ a ∈ fs, isJsDigit a = true := List.all_eq_true.mp hfsdig
    have hwsall : ∀ a ∈ ws, isJsWs a = true := List.all_eq_true.mp hws
    have hrest : ds ++ ('.' :: fs) ++ ws ++ u = ds ++ ('.' :: (fs ++ (ws ++ u))) := by
      simp
    rw [hrest]
    have hheadfail : ∀ c, ('.' :: (fs ++ (ws ++ u))).head? = some c →
        isJsDigit c = false := by
      intro c hc
      simp only [List.head?_cons, Option.some.injEq] at hc
      subst hc
      decide
    have htake : (ds ++ ('.' :: (fs ++ (ws ++ u)))).takeWhile isJsDigit = ds :=
      takeWhile_block hdsall hheadfail
    have hdrop : (ds ++ ('.' :: (fs ++ (ws ++ u)))).dropWhile isJsDigit
        = '.' :: (fs ++ (ws ++ u)) :=
      dropWhile_block hdsall hheadfail
    have htake2 : (fs ++ (ws ++ u)).takeWhile isJsDigit = fs :=
      takeWhile_block hfsall (wsu_head_not_digit hws hu)
    have hdrop2 : (fs ++ (ws ++ u)).dropWhile isJsDigit = ws ++ u :=
      dropWhile_block hfsall (wsu_head_not_digit hws hu)
    have hdropws : (ws ++ u).dropWhile isJsWs = u :=
      dropWhile_block hwsall (fun c hc => (unitOf_head hu c hc).2.1)
    refine ⟨numVal ds fs, un, ?_, by simp⟩
    unfold matchSize
    rw [htake, hdrop, List.tail_cons, htake2, hdrop2, hdropws,
      List.isEmpty_eq_false.mpr hds, List.isEmpty_eq_false.mpr hfsne, hu,
      if_neg (by simp),
      if_pos (show ('.' :: (fs ++ (ws ++ u))).head? = some '.' from rfl),
      if_neg (by simp)]
    rfl

/-- Completeness half for claim C9: a string the translated regex matches
has the claim shape with the matched value. -/
theorem match_sizeform {s : List Char} {n : Rat} {un : SizeUnit}
    (h : matchSize s = some (n, un)) : SizeForm s (n * (unitBytes un : Rat)) := by
  unfold matchSize at h
  by_cases hds : (s.takeWhile isJsDigit).isEmpty = true
  · rw [if_pos hds] at h
    cases h
  · rw [if_neg hds] at h
    by_cases hdot : (s.dropWhile isJsDigit).head? = some '.'
    · rw [if_pos hdot] at h
      obtain ⟨t, ht⟩ : ∃ t, s.dropWhile isJsDigit = '.' :: t := by
        cases hd : s.dropWhile isJsDigit with
        | nil => rw [hd] at hdot; cases hdot
        | cons a l =>
          rw [hd] at hdot
          simp only [List.head?_cons, Option.some.injEq] at hdot
          subst hdot
          exact ⟨l, rfl⟩
      rw [ht] at h
      simp only [List.tail_cons] at h
      by_cases hfs : (t.takeWhile isJsDigit).isEmpty = true
      · rw [if_pos hfs] at h
        cases h
      · rw [if_neg hfs] at h
        rw [Option.map_eq_some'] at h
        obtain ⟨un2, hun2, heq⟩ := h
        rw [Prod.mk.injEq] at heq
        obtain ⟨hn, hun⟩ := heq
        subst hun
        refine ⟨s.takeWhile isJsDigit, '.' :: t.takeWhile isJsDigit,
          (t.dropWhile isJsDigit).takeWhile isJsWs,
          (t.dropWhile isJsDigit).dropWhile isJsWs,
          un2, ?_, ?_, List.all_takeWhile, ?_, List.all_takeWhile, hun2, ?_⟩
        · have hcalc : s
              = s.takeWhile isJsDigit ++ ('.' :: (t.takeWhile isJsDigit ++
                  ((t.dropWhile isJsDigit).takeWhile isJsWs ++
                   (t.dropWhile isJsDigit).dropWhile isJsWs))) := by
            conv_lhs => rw [← List.takeWhile_append_dropWhile isJsDigit s, ht,
              ← List.takeWhile_append_dropWhile isJsDigit t,
              ← List.takeWhile_append_dropWhile isJsWs (t.dropWhile isJsDigit)]
          simp only [List.append_assoc, List.cons_append]
          exact hcalc
        · exact List.isEmpty_eq_false.mp (by simpa using hds)
        · exact Or.inr ⟨t.takeWhile isJsDigit,
            List.isEmpty_eq_false.mp (by simpa using hfs), List.all_takeWhile, rfl⟩
        · rw [← hn]
          rfl
    · rw [if_neg hdot] at h
      rw [Option.map_eq_some'] at h
      obtain ⟨un2, hun2, heq⟩ := h
      rw [Prod.mk.injEq] at heq
      obtain ⟨hn, hun⟩ := heq
      subst hun
      refine ⟨s.takeWhile isJsDigit, [],
        (s.dropWhile isJsDigit).takeWhile isJsWs,
        (s.dropWhile isJsDigit).dropWhile isJsWs,
        un2, ?_, ?_, List.all_takeWhile, Or.inl rfl, List.all_takeWhile, hun2, ?_⟩
      · have hcalc : s
            = s.takeWhile isJsDigit ++ ((s.dropWhile isJsDigit).takeWhile isJsWs ++
                (s.dropWhile isJsDigit).dropWhile isJsWs) := by
          conv_lhs => rw [← List.takeWhile_append_dropWhile isJsDigit s,
            ← List.takeWhile_append_dropWhile isJsWs (s.dropWhile isJsDigit)]
        simp only [List.append_nil, List.append_assoc]
        exact hcalc
      · exact List.isEmpty_eq_false.mp (by simpa using hds)
      · rw [← hn]
        rfl

/-- Claim C9: a configured maximum-size string matching
number-then-unit (`B`/`KB`/`MB`/`GB`, case-insensitive, optional spaces)
parses to the number times the unit bytes; every other string, the empty
string included, silently falls back to exactly `10 * 1024 * 1024` bytes;
and this parse is what the multipart decoder receives as its file-size
limit. -/
theorem c9_theorem :
    (∀ (s : List Char) (v : Rat), SizeForm s v → parseSize s = v) ∧
    (∀ s : List Char, (∀ v : Rat, ¬ SizeForm s v) → parseSize s = 10 * 1024 * 1024) ∧
    (∀ cfg : List Char, multerFileSizeLimit cfg = parseSize cfg) := by
  refine ⟨fun s v h => ?_, fun s h => ?_, fun cfg => rfl⟩
  · obtain ⟨n, un, hm, rfl⟩ := sizeform_match h
    simp [parseSize, hm]
  · cases hm : matchSize s with
    | none => simp [parseSize, hm]
    | some p =>
      exact absurd (match_sizeform (show matchSize s = some (p.1, p.2) by rw [hm]))
        (h _)

/-- Witness for claim C9: the default configuration string `10MB` parses to
10485760 bytes and the empty string falls back to the same 10 MB default. -/
theorem c9_witness :
    parseSize (chars "10MB") = 10485760 ∧ parseSize [] = 10485760 := by
  constructor
  · have hv : (10485760 : Rat) = numVal (chars "10") [] * ((unitBytes .mb : Nat) : Rat) := by
      have h1 : digitsVal (chars "10") = 10 := by decide
      have h2 : digitsVal [] = 0 := rfl
      simp [numVal, h1, h2, unitBytes]
      norm_num
    rw [hv]
    exact c9_theorem.1 (chars "10MB") _
      ⟨chars "10", [], [], chars "MB", .mb, by decide, by decide, by decide,
        Or.inl rfl, by decide, by decide, rfl⟩
  · refine c9_theorem.2.1 [] (fun v hv => ?_) |>.trans (by norm_num)
    obtain ⟨ds, fsOpt, ws, u, un, hs, hds, -⟩ := hv
    rw [List.append_assoc, List.append_assoc] at hs
    have := (List.append_eq_nil.mp hs.symm).1
    exact hds this

end MinVault
